import Mathlib

/-!
Verification development for the gavaconnect SDK HTTP core.

Shallow embedding of:
- `gavaconnect/helpers/idempotency.py` (`_full_jitter`, `_parse_retry_after`,
  `_is_idempotent`, `_can_retry`)
- `gavaconnect/config.py` (`RetryPolicy`, `SDKConfig`)
- `gavaconnect/errors.py` (`APIError` / `RateLimitError` payloads)
- `gavaconnect/http/transport.py` (`AsyncTransport.request` retry loop,
  `raise_for_api_error`)
- `gavaconnect/auth/providers.py` (`ClientCredentialsProvider`,
  `BasicTokenEndpointProvider`)

Python floats are modelled as rationals, machine randomness as an explicit
sample `u` drawn from `[0,1]`, the wall clock as an explicit `now` parameter,
and HTTP traffic as explicit response values handed to the embedded code.
Python exceptions are modelled with `Except`.
-/

namespace Gava

deriving instance DecidableEq for Except

/-- Python `str.upper()` (ASCII case mapping, character by character). -/
def pyUpper (s : String) : String := String.mk (s.data.map Char.toUpper)

/-- Python `str.lower()` (ASCII case mapping, character by character). -/
def pyLower (s : String) : String := String.mk (s.data.map Char.toLower)

/-- Strip leading and trailing whitespace, as `float()` does on its input. -/
def trimChars (l : List Char) : List Char :=
  ((l.dropWhile Char.isWhitespace).reverse.dropWhile Char.isWhitespace).reverse

/-- Python exception kinds that the embedded code can raise. -/
inductive PyErr
  | attributeError
  | typeError
  | httpStatusError
  | keyError
deriving DecidableEq, Repr

/-- Model of `random.uniform(lo, hi)`: the library returns `lo + u * (hi - lo)`
for a random sample `u` drawn from `[0, 1]`; the sample is passed explicitly. -/
def uniformQ (lo hi u : ℚ) : ℚ := lo + u * (hi - lo)

/-- From `helpers/idempotency.py`:
`_full_jitter(base, attempt, cap)` computes
`max_sleep = min(cap, base * (2**attempt))` and returns
`_rng.uniform(0.0, max_sleep)`.  The RNG sample `u ∈ [0,1]` is explicit. -/
def _full_jitter (base : ℚ) (attempt : Nat) (cap : ℚ) (u : ℚ) : ℚ :=
  uniformQ 0 (min cap (base * 2 ^ attempt)) u

/-- Numeric value of a list of decimal digit characters. -/
def natOfDigits (l : List Char) : Nat :=
  l.foldl (fun a c => 10 * a + (c.toNat - 48)) 0

/-- Decimal-literal grammar accepted by Python `float()` (sign handled by the
caller): `digits`, `digits.digits`, `digits.` or `.digits`. -/
def parseDecimalQ (l : List Char) : Option ℚ :=
  let intPart := l.takeWhile Char.isDigit
  let rest := l.dropWhile Char.isDigit
  match rest with
  | [] => if intPart.isEmpty then none else some (natOfDigits intPart : ℚ)
  | '.' :: frac =>
      if frac.all Char.isDigit && !(intPart.isEmpty && frac.isEmpty) then
        some ((natOfDigits intPart : ℚ) + (natOfDigits frac : ℚ) / 10 ^ frac.length)
      else none
  | _ => none

/-- Model of the library call `float(value)` on the plain decimal grammar
(optional sign, digits, optional fractional part, surrounding whitespace):
`none` models the `ValueError` raised for a malformed literal. -/
def parseFloatQ (s : String) : Option ℚ :=
  match trimChars s.data with
  | '-' :: rest => (parseDecimalQ rest).map (fun q => -q)
  | '+' :: rest => parseDecimalQ rest
  | l => parseDecimalQ l

/-- Result of the library call `email.utils.parsedate_to_datetime`:
`wall` is the parsed wall-clock instant in epoch seconds when read as UTC,
`tzOffset` is `utcoffset()` in seconds for an aware datetime and `none` for a
naive one. -/
structure PyDatetime where
  wall : ℚ
  tzOffset : Option ℚ
deriving DecidableEq, Repr

/-- Epoch instant of a parsed datetime after the code's
`if dt.tzinfo is None: dt = dt.replace(tzinfo=datetime.UTC)` step: a naive
datetime is read as UTC (offset 0), an aware one subtracts its offset. -/
def PyDatetime.epochUTC (d : PyDatetime) : ℚ := d.wall - d.tzOffset.getD 0

/-- Library boundary used by `_parse_retry_after`: the current UTC instant in
epoch seconds and the `parsedate_to_datetime` parser (`.error` models a raised
exception, `.ok none` a `None` result). -/
structure RAEnv where
  now : ℚ
  parsedate : String → Except Unit (Option PyDatetime)

/-- HTTP-date branch of `_parse_retry_after`: inside `try`, parse the value,
normalize a naive datetime to UTC and return
`max(0.0, (dt - datetime.datetime.now(datetime.UTC)).total_seconds())`;
an exception or a `None` datetime yields `None`. -/
def retryAfterDateBranch (env : RAEnv) (v : String) : Option ℚ :=
  match env.parsedate v with
  | .error _ => none
  | .ok none => none
  | .ok (some dt) => some (max 0 (dt.epochUTC - env.now))

/-- From `helpers/idempotency.py`: `_parse_retry_after(value)`.
`if not value: return None`; then try `float(value)` and return it when
non-negative (a negative value falls through); then try the HTTP-date branch. -/
def _parse_retry_after (env : RAEnv) (value : Option String) : Option ℚ :=
  match value with
  | none => none
  | some v =>
      if v = "" then none
      else
        match parseFloatQ v with
        | some secs => if 0 ≤ secs then some secs else retryAfterDateBranch env v
        | none => retryAfterDateBranch env v

/-- From `helpers/idempotency.py`: `_is_idempotent(method)` is
`method.upper() in {"GET", "HEAD", "OPTIONS", "DELETE"}`. -/
def _is_idempotent (method : String) : Bool :=
  pyUpper method = "GET" || pyUpper method = "HEAD" ||
    pyUpper method = "OPTIONS" || pyUpper method = "DELETE"

/-- From `helpers/idempotency.py`: `_can_retry(method, req)` is
`_is_idempotent(method) or ("idempotency-key" in (k.lower() for k in
req.headers.keys()))`; the request's header names are passed as a list. -/
def _can_retry (method : String) (headerKeys : List String) : Bool :=
  _is_idempotent method || headerKeys.any (fun k => pyLower k = "idempotency-key")

/-- From `config.py`: `@dataclass(slots=True) class RetryPolicy` with fields
`max_attempts = 3`, `base_backoff_s = 0.2`,
`retry_on_status = (429, 500, 502, 503, 504)` and no other slot. -/
structure RetryPolicy where
  max_attempts : Nat := 3
  base_backoff_s : ℚ := 1 / 5
  retry_on_status : List Nat := [429, 500, 502, 503, 504]
deriving DecidableEq, Repr

/-- A Python attribute value read off a `RetryPolicy` instance. -/
inductive PyAttrVal
  | intV (n : Nat)
  | floatV (q : ℚ)
  | tupleV (l : List Nat)
deriving DecidableEq, Repr

/-- Python attribute access on a `RetryPolicy` instance: with
`@dataclass(slots=True)` only the three declared slots exist and any other
attribute name raises `AttributeError`. -/
def RetryPolicy.getattr (p : RetryPolicy) (name : String) : Except PyErr PyAttrVal :=
  if name = "max_attempts" then .ok (.intV p.max_attempts)
  else if name = "base_backoff_s" then .ok (.floatV p.base_backoff_s)
  else if name = "retry_on_status" then .ok (.tupleV p.retry_on_status)
  else .error .attributeError

/-- The transport's read of `self.cfg.retry.max_cap_s`
(`http/transport.py`, both fallback-jitter call sites). -/
def readMaxCap (p : RetryPolicy) : Except PyErr ℚ :=
  match p.getattr "max_cap_s" with
  | .ok (.floatV q) => .ok q
  | .ok _ => .error .typeError
  | .error e => .error e

/-- From `config.py`: `@dataclass(slots=True) class SDKConfig`. -/
structure SDKConfig where
  base_url : String
  connect_timeout_s : ℚ := 5
  read_timeout_s : ℚ := 30
  total_timeout_s : ℚ := 40
  retry : RetryPolicy := {}
  user_agent : String := "gavaconnect-py/1.0.0"

/-! ## Transport retry loop (`http/transport.py`, `AsyncTransport.request`) -/

/-- Errors that can terminate `AsyncTransport.request`: a wrapped
`TransportError`, a propagated Python exception, or the model artifact of the
response script running out (the real `send` would block). -/
inductive TErr
  | transportError
  | py (e : PyErr)
  | noMoreSends
deriving DecidableEq, Repr

/-- Observable actions of one `AsyncTransport.request` call, in program order:
`build` the request, `authorize` via the auth policy, run the request hooks,
`send`, run the response hooks, call `on_unauthorized`, and sleep. -/
inductive Ev
  | build
  | authorize
  | reqHooks
  | respHooks
  | send
  | onUnauth
  | sleepFor (d : ℚ)
deriving DecidableEq, Repr

/-- Whether an event is a `send` of the underlying client. -/
def Ev.isSend : Ev → Bool
  | .send => true
  | _ => false

/-- Whether an event is a request (re)build. -/
def Ev.isBuild : Ev → Bool
  | .build => true
  | _ => false

/-- Number of `client.send` calls recorded in a trace. -/
def countSends (tr : List Ev) : Nat := tr.countP Ev.isSend

/-- Number of `client.build_request` calls recorded in a trace. -/
def countBuilds (tr : List Ev) : Nat := tr.countP Ev.isBuild

/-- Outcome of one `client.send`: an `httpx.HTTPError`
(network/protocol failure) or a response with its status code and raw
`retry-after` header value. -/
inductive SendOutcome
  | netErr
  | resp (status : Nat) (retryAfter : Option String)
deriving DecidableEq, Repr

/-- Context of one logical `AsyncTransport.request` call: the HTTP method and
the header names of the built request (inputs of `_can_retry`), whether an
auth policy was supplied, what its `on_unauthorized()` does (`.error` models a
raised exception), the retry policy from `SDKConfig`, and the library
environment for Retry-After date parsing. -/
structure TCfg where
  method : String
  headerKeys : List String
  authPresent : Bool
  refreshResult : Except Unit Bool
  retry : RetryPolicy
  env : RAEnv

/-- The value the code binds after
`try: refreshed = await auth.on_unauthorized() except Exception:
refreshed = False`. -/
def refreshOkB : Except Unit Bool → Bool
  | .ok b => b
  | .error _ => false

/-- Pop the next RNG sample (`_rng.uniform` draw) off the sample stream. -/
def popU : List ℚ → ℚ × List ℚ
  | [] => (0, [])
  | u :: r => (u, r)

/-- The `authorize` event emitted by the `if auth:` guarded call sites. -/
def authEvs (cfg : TCfg) : List Ev :=
  if cfg.authPresent then [.authorize] else []

/-- The `while True:` loop body of `AsyncTransport.request`, iterated over the
script of send outcomes (one script entry per `client.send`).  State:
remaining RNG samples `us`, the `attempt` counter, the `did_refresh` flag,
and the accumulated event trace.
- network error: raise `TransportError` when `attempt > max_attempts` or the
  request is not retry-eligible; else read `retry.max_cap_s` (which raises
  `AttributeError` on the shipped `RetryPolicy`), sleep the full jitter,
  rebuild and re-authorize (request hooks are not re-run on this path);
- response: run response hooks; on a first 401 with auth present call
  `on_unauthorized` and, if it refreshed, retry immediately after
  rebuild + authorize + request hooks;
- retryable status within budget: sleep the parsed Retry-After with a ±10%
  wiggle, or the full jitter when the header is absent/unparsable (reading
  `retry.max_cap_s` again), then rebuild + authorize + request hooks;
- otherwise return the response. -/
def sendLoop (cfg : TCfg) :
    List SendOutcome → List ℚ → Nat → Bool → List Ev → Except TErr Nat × List Ev
  | [], _, _, _, tr => (.error .noMoreSends, tr)
  | .netErr :: rest, us, attempt, didRefresh, tr =>
      let tr := tr ++ [.send]
      if attempt > cfg.retry.max_attempts ∨ _can_retry cfg.method cfg.headerKeys = false then
        (.error .transportError, tr)
      else
        match readMaxCap cfg.retry with
        | .error e => (.error (.py e), tr)
        | .ok cap =>
            let p := popU us
            let d := _full_jitter cfg.retry.base_backoff_s attempt cap p.1
            sendLoop cfg rest p.2 (attempt + 1) didRefresh
              (tr ++ [.sleepFor d, .build] ++ authEvs cfg)
  | .resp st ra :: rest, us, attempt, didRefresh, tr =>
      let tr := tr ++ [.send, .respHooks]
      let do401 : Bool := (st == 401) && cfg.authPresent && !didRefresh
      let tr := tr ++ (if do401 then [.onUnauth] else [])
      if do401 && refreshOkB cfg.refreshResult then
        sendLoop cfg rest us (attempt + 1) true (tr ++ [.build, .authorize, .reqHooks])
      else if st ∈ cfg.retry.retry_on_status ∧ attempt ≤ cfg.retry.max_attempts ∧
          _can_retry cfg.method cfg.headerKeys = true then
        match _parse_retry_after cfg.env ra with
        | some r =>
            let p := popU us
            let w := r / 10
            let d := max 0 (uniformQ (max 0 (r - w)) (r + w) p.1)
            sendLoop cfg rest p.2 (attempt + 1) didRefresh
              (tr ++ [.sleepFor d, .build] ++ authEvs cfg ++ [.reqHooks])
        | none =>
            match readMaxCap cfg.retry with
            | .error e => (.error (.py e), tr)
            | .ok cap =>
                let p := popU us
                let d := _full_jitter cfg.retry.base_backoff_s attempt cap p.1
                sendLoop cfg rest p.2 (attempt + 1) didRefresh
                  (tr ++ [.sleepFor d, .build] ++ authEvs cfg ++ [.reqHooks])
      else
        (.ok st, tr)

/-- `AsyncTransport.request`: build the request, authorize when an auth policy
is supplied, run the request hooks, then enter the send loop with
`attempt = 1` and `did_refresh = False`. -/
def requestT (cfg : TCfg) (script : List SendOutcome) (us : List ℚ) :
    Except TErr Nat × List Ev :=
  sendLoop cfg script us 1 false ([.build] ++ authEvs cfg ++ [.reqHooks])

/-! ## Error classifier (`AsyncTransport.raise_for_api_error`) -/

/-- The optional fields of the JSON `error` object
(`body.get("error", {})` then `err.get(...)`). -/
structure ErrorObj where
  type_ : Option String
  message : Option String
  code : Option String
  retry_after : Option ℚ
deriving DecidableEq, Repr

/-- A terminal HTTP response as seen by `raise_for_api_error`: status code,
outcome of `resp.json(); body.get("error", {})` (`.error` models any exception
inside the `try`), `resp.text`, `resp.content`, and the `x-request-id`
response header. -/
structure HttpRespE where
  status_code : Nat
  jsonError : Except Unit ErrorObj
  text : String
  content : String
  xRequestId : Option String
deriving Repr

/-- Payload of a raised `APIError` (`errors.py`); `isRateLimit` records whether
the raised class was `RateLimitError`. -/
structure APIErrorS where
  isRateLimit : Bool
  status : Nat
  type_ : String
  message : String
  code : Option String
  request_id : Option String
  retry_after_s : Option ℚ
  body : String
deriving DecidableEq, Repr

/-- Python `x or default` on an optional string: `None` and `""` are falsy. -/
def pyOrS : Option String → String → String
  | some s, d => if s = "" then d else s
  | none, d => d

/-- `AsyncTransport.raise_for_api_error(resp)`: return for status `< 400`;
when the JSON parse fails raise `APIError(status, "api_error", resp.text,
None, rid, None, resp.content)`; else raise `RateLimitError` exactly for
status 429 and `APIError` otherwise, with `or`-defaulted type and message. -/
def raise_for_api_error (r : HttpRespE) : Except APIErrorS Unit :=
  if r.status_code < 400 then .ok ()
  else
    match r.jsonError with
    | .error _ =>
        .error (APIErrorS.mk false r.status_code "api_error" r.text none r.xRequestId
          none r.content)
    | .ok err =>
        let typ := pyOrS err.type_ "api_error"
        let msg := pyOrS err.message r.text
        .error (APIErrorS.mk (r.status_code == 429) r.status_code typ msg err.code
          r.xRequestId err.retry_after r.content)

/-! ## Token providers (`auth/providers.py`) -/

/-- `MIN_TOKEN_TTL_S = 30.0`. -/
def MIN_TOKEN_TTL_S : ℚ := 30

/-- Cached token state of a provider instance:
`self._token, self._exp = "", 0.0` is the empty-cache sentinel. -/
structure ProviderState where
  token : String
  exp : ℚ
deriving DecidableEq, Repr

/-- The cache check `if self._token and time.time() < self._exp:` shared by
both providers' `get_token`. -/
def tokenCacheHit (token : String) (exp now : ℚ) : Bool :=
  (token != "") && decide (now < exp)

/-- JSON body of a token-endpoint response as consumed by `_fetch`:
HTTP status, optional `access_token` (absence raises `KeyError` on
`p["access_token"]`), optional `expires_in`. -/
structure TokenResp where
  status : Nat
  access_token : Option String
  expires_in : Option ℚ
deriving DecidableEq, Repr

namespace ClientCredentialsProvider

/-- Form body sent by `ClientCredentialsProvider._fetch`:
`{"grant_type": "client_credentials"} | ({"scope": scope} if scope else {})`. -/
def formData (scope : Option String) : List (String × String) :=
  [("grant_type", "client_credentials")] ++
    (match scope with
     | some s => [("scope", s)]
     | none => [])

/-- Response side of `ClientCredentialsProvider._fetch` (the POST itself is
the HTTP boundary; its response is the input): `r.raise_for_status()` raises
for any non-2xx status, then parse `access_token` and `expires_in`
(default 3600) and return
`(token, time.time() + max(MIN_TOKEN_TTL_S, ttl - self._early))`. -/
def _fetch (early now : ℚ) (r : TokenResp) : Except PyErr (String × ℚ) :=
  if r.status < 200 ∨ 300 ≤ r.status then .error .httpStatusError
  else
    match r.access_token with
    | none => .error .keyError
    | some t => .ok (t, now + max MIN_TOKEN_TTL_S (r.expires_in.getD 3600 - early))

/-- `ClientCredentialsProvider.get_token` under the instance lock: return the
cached token when the cache check passes, else fetch and cache.  The third
component records whether `_fetch` ran; on a `_fetch` exception the cached
state is returned unchanged (the assignment never executes). -/
def get_token (early now : ℚ) (r : TokenResp) (st : ProviderState) :
    Except PyErr String × ProviderState × Bool :=
  if tokenCacheHit st.token st.exp now then (.ok st.token, st, false)
  else
    match _fetch early now r with
    | .ok te => (.ok te.1, ProviderState.mk te.1 te.2, true)
    | .error e => (.error e, st, true)

/-- `ClientCredentialsProvider.refresh` under the instance lock:
unconditionally fetch and replace the cache; on an exception the cached state
is unchanged. -/
def refresh (early now : ℚ) (r : TokenResp) (st : ProviderState) :
    Except PyErr String × ProviderState × Bool :=
  match _fetch early now r with
  | .ok te => (.ok te.1, ProviderState.mk te.1 te.2, true)
  | .error e => (.error e, st, true)

end ClientCredentialsProvider

namespace BasicTokenEndpointProvider

/-- The `method: Literal["GET", "POST"]` constructor argument. -/
inductive HM
  | GET
  | POST
deriving DecidableEq, Repr

/-- Response side of `BasicTokenEndpointProvider._fetch`: the GET or POST
chosen by `self._method` is the HTTP boundary; `resp.raise_for_status()`
raises for any non-2xx status, then the same parse and expiry computation as
the client-credentials variant. -/
def _fetch (method : HM) (early now : ℚ) (r : TokenResp) : Except PyErr (String × ℚ) :=
  let _ := method
  if r.status < 200 ∨ 300 ≤ r.status then .error .httpStatusError
  else
    match r.access_token with
    | none => .error .keyError
    | some t => .ok (t, now + max MIN_TOKEN_TTL_S (r.expires_in.getD 3600 - early))

/-- `BasicTokenEndpointProvider.get_token` under the instance lock: identical
cache discipline to the client-credentials variant. -/
def get_token (method : HM) (early now : ℚ) (r : TokenResp) (st : ProviderState) :
    Except PyErr String × ProviderState × Bool :=
  if tokenCacheHit st.token st.exp now then (.ok st.token, st, false)
  else
    match _fetch method early now r with
    | .ok te => (.ok te.1, ProviderState.mk te.1 te.2, true)
    | .error e => (.error e, st, true)

/-- `BasicTokenEndpointProvider.refresh` under the instance lock. -/
def refresh (method : HM) (early now : ℚ) (r : TokenResp) (st : ProviderState) :
    Except PyErr String × ProviderState × Bool :=
  match _fetch method early now r with
  | .ok te => (.ok te.1, ProviderState.mk te.1 te.2, true)
  | .error e => (.error e, st, true)

end BasicTokenEndpointProvider

/-! ## Concurrent `get_token` callers (asyncio interleaving model)

Cooperative asyncio semantics: code between `await` points runs atomically.
One `get_token` call has two atomic segments:
resuming from `async with self._lock` (acquire) together with the cache check
— returning the cached token releases the lock in the same segment — and
resuming from `await self._fetch()` together with the cache assignment,
release and return.  A scheduler picks which task advances at each step. -/

/-- Progress of one `get_token` caller. -/
inductive TaskPhase
  | ready
  | fetching
  | doneOk (t : String)
  | doneErr
deriving DecidableEq, Repr

/-- Whether a caller has returned (with a token or an exception). -/
def TaskPhase.isDone : TaskPhase → Bool
  | .doneOk _ => true
  | .doneErr => true
  | _ => false

/-- Shared state of one provider instance plus its concurrent callers:
the token cache, the asyncio lock holder, each task's phase, and the number
of completed `_fetch` calls (`fetchCount` also indexes the response script). -/
structure FetchSys where
  cache : ProviderState
  lock : Option Nat
  tasks : List TaskPhase
  fetchCount : Nat
deriving DecidableEq, Repr

/-- One scheduler step running task `i` of a `ClientCredentialsProvider`
whose `k`-th token-endpoint response is `resps k`:
- a `ready` task resumes from the lock acquire when the lock is free, checks
  the cache, and either returns the cached token (releasing the lock in the
  same atomic segment) or starts a `_fetch` while holding the lock;
- a `fetching` task resumes with its `_fetch` outcome, caches on success
  (state untouched on exception), releases the lock and returns;
- anything else (task finished, lock held elsewhere) leaves the state as is. -/
def stepSys (early now : ℚ) (resps : Nat → TokenResp) (s : FetchSys) (i : Nat) : FetchSys :=
  match s.tasks[i]? with
  | some .ready =>
      if s.lock = none then
        if tokenCacheHit s.cache.token s.cache.exp now then
          FetchSys.mk s.cache s.lock (s.tasks.set i (.doneOk s.cache.token)) s.fetchCount
        else
          FetchSys.mk s.cache (some i) (s.tasks.set i .fetching) s.fetchCount
      else s
  | some .fetching =>
      if s.lock = some i then
        match ClientCredentialsProvider._fetch early now (resps s.fetchCount) with
        | .ok te =>
            FetchSys.mk (ProviderState.mk te.1 te.2) none
              (s.tasks.set i (.doneOk te.1)) (s.fetchCount + 1)
        | .error _ =>
            FetchSys.mk s.cache none (s.tasks.set i .doneErr) (s.fetchCount + 1)
      else s
  | _ => s

/-- Run a schedule (a list of task choices) from a system state. -/
def runSys (early now : ℚ) (resps : Nat → TokenResp) (s : FetchSys) (sched : List Nat) :
    FetchSys :=
  sched.foldl (stepSys early now resps) s

/-- `N` concurrent `get_token` callers on a freshly constructed provider:
empty cache sentinel `("", 0.0)`, lock free, no fetch yet. -/
def initSys (N : Nat) : FetchSys :=
  FetchSys.mk (ProviderState.mk "" 0) none (List.replicate N .ready) 0

/-- Invariant of the concurrent `get_token` system when every token-endpoint
response is a 200 carrying the same non-empty token `T` with TTL `ttl`:
a fetching task holds the lock; before the first fetch completes the cache is
the empty sentinel and every task is still ready or fetching; afterwards
exactly one fetch has completed, the cache holds `T` with the computed
expiry, and every task is ready or has returned `T`. -/
def SysInv (early now ttl : ℚ) (T : String) (s : FetchSys) : Prop :=
  (∀ i : Nat, s.tasks[i]? = some TaskPhase.fetching → s.lock = some i) ∧
    (s.fetchCount = 0 →
      s.cache = ProviderState.mk "" 0 ∧
        ∀ (i : Nat) (p : TaskPhase),
          s.tasks[i]? = some p → p = TaskPhase.ready ∨ p = TaskPhase.fetching) ∧
    (s.fetchCount ≠ 0 →
      s.fetchCount = 1 ∧
        s.cache = ProviderState.mk T (now + max MIN_TOKEN_TTL_S (ttl - early)) ∧
        ∀ (i : Nat) (p : TaskPhase),
          s.tasks[i]? = some p → p = TaskPhase.ready ∨ p = TaskPhase.doneOk T)

/-- Statement of the spec's Retry-After algorithm, written from the spec text
(for comparison with the source's `_parse_retry_after`): a value parsing as a
non-negative number is returned directly as seconds; otherwise a value parsing
as an HTTP-date yields `max(0, parsedInstant - now)` with naive timestamps
read as UTC; every other case — malformed number, malformed date, negative
numeric value, or an absent header — is absent. -/
def parseRetryAfterSpec (env : RAEnv) : Option String → Option ℚ
  | none => none
  | some v =>
      match parseFloatQ v with
      | some s => if 0 ≤ s then some s else none
      | none =>
          match env.parsedate v with
          | .ok (some dt) => some (max 0 (dt.epochUTC - env.now))
          | _ => none

/-! ## Concrete inputs used by the example theorems -/

/-- An environment whose HTTP-date parser rejects everything, as
`parsedate_to_datetime` does on every non-date string. -/
def envNoDate : RAEnv := RAEnv.mk 0 (fun _ => .error ())

/-- A GET request context with `max_attempts = 1`, an auth policy whose
`on_unauthorized()` refreshes successfully, and the default retryable
statuses. -/
def cfgC2 : TCfg :=
  TCfg.mk "GET" [] true (.ok true) (RetryPolicy.mk 1 (1 / 5) [429, 500, 502, 503, 504]) envNoDate

/-- Send outcomes: a 429 with `retry-after: 0`, then a 401, then a 200. -/
def scriptC2 : List SendOutcome :=
  [.resp 429 (some "0"), .resp 401 none, .resp 200 none]

/-- A GET request context with the default retry policy and an auth policy. -/
def cfgC4 : TCfg := TCfg.mk "GET" [] true (.ok false) {} envNoDate

/-- Send outcomes: a network error on the first send, then a 200. -/
def scriptC4 : List SendOutcome := [.netErr, .resp 200 none]

/-- A 429 response whose body is not valid JSON. -/
def c5resp : HttpRespE := HttpRespE.mk 429 (.error ()) "boom" "boom" none

/-- A 404 response with a well-formed JSON error envelope. -/
def c5respD : HttpRespE :=
  HttpRespE.mk 404 (.ok (ErrorObj.mk (some "not_found") (some "x") none none))
    "raw" "raw" (some "req-1")

/-- A token endpoint that always answers 200 with an empty-string
`access_token` and `expires_in = 3600`. -/
def emptyTokenResps : Nat → TokenResp := fun _ => TokenResp.mk 200 (some "") (some 3600)

/-- A token endpoint that always answers 200 with token `"tok"` and
`expires_in = 3600`. -/
def tokResps : Nat → TokenResp := fun _ => TokenResp.mk 200 (some "tok") (some 3600)

/-! ## Theorems -/

/-- C1: the shipped `RetryPolicy` (slots `max_attempts`, `base_backoff_s`,
`retry_on_status` only) has no `max_cap_s` attribute, so the transport's read
of `self.cfg.retry.max_cap_s` on the fallback jitter-backoff path raises
`AttributeError` instead of succeeding — evaluated here on the
default-constructed policy. -/
theorem c1_retry_policy_lacks_max_cap :
    readMaxCap (RetryPolicy.mk 3 (1 / 5) [429, 500, 502, 503, 504]) =
      .error .attributeError := rfl

/-- C3 counterexample: at base `b = 1`, attempt `n = 1`, cap `c = 100` the
code's jitter upper bound is `min(c, b·2^n) = 2`, so the RNG sample `u = 1`
yields a delay of `2`, exceeding the claimed bound `min(c, b·2^(n-1)) = 1`. -/
theorem c3_counterexample :
    _full_jitter 1 1 100 1 = 2 ∧ ¬ _full_jitter 1 1 100 1 ≤ min 100 (1 * 2 ^ (1 - 1)) := by
  constructor <;> norm_num [_full_jitter, uniformQ]

/-- C3 amended: for base `b > 0`, attempt `n ≥ 1`, cap `c > 0`, and an RNG
sample `u ∈ [0,1]`, the jitter delay lies in `[0, min(c, b·2^n)]` — the code
uses exponent `n`, not `n - 1`. -/
theorem c3_full_jitter_range (b c u : ℚ) (n : Nat) (hb : 0 < b) (hc : 0 < c)
    (_hn : 1 ≤ n) (hu0 : 0 ≤ u) (hu1 : u ≤ 1) :
    0 ≤ _full_jitter b n c u ∧ _full_jitter b n c u ≤ min c (b * 2 ^ n) := by
  have h : _full_jitter b n c u = u * min c (b * 2 ^ n) := by
    unfold _full_jitter uniformQ; ring
  have hm : (0 : ℚ) ≤ min c (b * 2 ^ n) := le_min hc.le (by positivity)
  rw [h]
  exact ⟨mul_nonneg hu0 hm, mul_le_of_le_one_left hm hu1⟩

/-- C3 witness: the amended bound instantiated at `b = 1`, `n = 2`, `c = 10`,
`u = 1/2`. -/
theorem c3_witness :
    0 ≤ _full_jitter 1 2 10 (1 / 2) ∧ _full_jitter 1 2 10 (1 / 2) ≤ min 10 (1 * 2 ^ 2) :=
  c3_full_jitter_range 1 10 (1 / 2) 2 (by norm_num) (by norm_num) (by norm_num)
    (by norm_num) (by norm_num)

/-- C4: a retry-eligible GET with attempts remaining that hits a network error
on its first send does not reach a rebuilt, re-authorized, re-hooked second
attempt: the call aborts with the `AttributeError` from the `max_cap_s` read.
Exactly one build and one send occur. -/
theorem c4_network_failure_aborts :
    (requestT cfgC4 scriptC4 [0]).1 = .error (.py .attributeError) ∧
      countBuilds (requestT cfgC4 scriptC4 [0]).2 = 1 ∧
      countSends (requestT cfgC4 scriptC4 [0]).2 = 1 := by
  refine ⟨by decide, by decide, by decide⟩

/-- C5 counterexample: a 429 response whose body does not parse as JSON is
raised as a plain `APIError` (`isRateLimit = false`), not as the claimed
`RateLimitError`. -/
theorem c5_counterexample :
    c5resp.status_code = 429 ∧
      raise_for_api_error c5resp =
        .error (APIErrorS.mk false 429 "api_error" "boom" none none none "boom") :=
  ⟨rfl, rfl⟩

/-- C5 amended: the classifier returns normally exactly for status `< 400`
and raises otherwise; the raised error is a `RateLimitError` iff the status
is 429 and the body parsed as JSON (an unparseable body always yields a plain
`APIError` with the raw text as message and type `"api_error"`); it always
carries the status, the `x-request-id` header, and the raw body. -/
theorem c5_classifier (r : HttpRespE) :
    (r.status_code < 400 → raise_for_api_error r = .ok ()) ∧
      (400 ≤ r.status_code →
        ∃ e, raise_for_api_error r = .error e ∧
          e.status = r.status_code ∧
          e.request_id = r.xRequestId ∧
          e.body = r.content ∧
          (e.isRateLimit = true ↔ r.status_code = 429 ∧ ∃ o, r.jsonError = .ok o) ∧
          (r.jsonError = .error () → e.message = r.text ∧ e.type_ = "api_error") ∧
          (∀ o, r.jsonError = .ok o →
            e.type_ = pyOrS o.type_ "api_error" ∧ e.message = pyOrS o.message r.text ∧
              e.code = o.code ∧ e.retry_after_s = o.retry_after)) := by
  constructor
  · intro h
    simp [raise_for_api_error, h]
  · intro h
    have h' : ¬ r.status_code < 400 := by omega
    cases hj : r.jsonError with
    | error u =>
        cases u
        refine ⟨APIErrorS.mk false r.status_code "api_error" r.text none r.xRequestId
          none r.content, ?_, rfl, rfl, rfl, ?_, ?_, ?_⟩
        · simp [raise_for_api_error, h', hj]
        · constructor
          · intro hfalse; exact absurd hfalse (by simp)
          · rintro ⟨-, o, ho⟩; exact Except.noConfusion ho
        · intro _; exact ⟨rfl, rfl⟩
        · intro o ho; exact Except.noConfusion ho
    | ok o =>
        refine ⟨APIErrorS.mk (r.status_code == 429) r.status_code (pyOrS o.type_ "api_error")
          (pyOrS o.message r.text) o.code r.xRequestId o.retry_after r.content,
          ?_, rfl, rfl, rfl, ?_, ?_, ?_⟩
        · simp [raise_for_api_error, h', hj]
        · simp only [beq_iff_eq]
          constructor
          · intro he; exact ⟨he, o, rfl⟩
          · rintro ⟨he, -⟩; exact he
        · intro hcontr; exact Except.noConfusion hcontr
        · intro o' ho'
          injection ho' with ho'
          subst ho'
          exact ⟨rfl, rfl, rfl, rfl⟩

/-- C5 witness: the amended classifier property at a 404 response with a
well-formed JSON error envelope. -/
theorem c5_witness :
    400 ≤ c5respD.status_code ∧
      ∃ e, raise_for_api_error c5respD = .error e ∧
        e.status = c5respD.status_code ∧
        e.request_id = c5respD.xRequestId ∧
        e.body = c5respD.content ∧
        (e.isRateLimit = true ↔ c5respD.status_code = 429 ∧ ∃ o, c5respD.jsonError = .ok o) ∧
        (c5respD.jsonError = .error () → e.message = c5respD.text ∧ e.type_ = "api_error") ∧
        (∀ o, c5respD.jsonError = .ok o →
          e.type_ = pyOrS o.type_ "api_error" ∧ e.message = pyOrS o.message c5respD.text ∧
            e.code = o.code ∧ e.retry_after_s = o.retry_after) :=
  ⟨by norm_num [c5respD], (c5_classifier c5respD).2 (by norm_num [c5respD])⟩

/-- C7: retry eligibility is true for GET/HEAD/OPTIONS/DELETE (method compared
case-insensitively) regardless of headers, and for every other method it is
true iff some request header name lowercases to `"idempotency-key"`. -/
theorem c7_retry_eligibility (method : String) (headerKeys : List String) :
    (pyUpper method ∈ ["GET", "HEAD", "OPTIONS", "DELETE"] →
      _can_retry method headerKeys = true) ∧
      (pyUpper method ∉ ["GET", "HEAD", "OPTIONS", "DELETE"] →
        (_can_retry method headerKeys = true ↔
          ∃ k ∈ headerKeys, pyLower k = "idempotency-key")) := by
  have hid : _is_idempotent method = true ↔
      pyUpper method ∈ ["GET", "HEAD", "OPTIONS", "DELETE"] := by
    simp [_is_idempotent]
    tauto
  constructor
  · intro h
    simp [_can_retry, hid.mpr h]
  · intro h
    have hfalse : _is_idempotent method = false := by
      cases hb : _is_idempotent method
      · rfl
      · exact absurd (hid.mp hb) h
    simp [_can_retry, hfalse, List.any_eq_true]

/-- C7 witness: a lowercase-`post` request with a mixed-case
`Idempotency-Key` header is retry-eligible. -/
theorem c7_witness : _can_retry "Post" ["Idempotency-Key"] = true :=
  ((c7_retry_eligibility "Post" ["Idempotency-Key"]).2 (by decide)).mpr
    ⟨"Idempotency-Key", by simp, by decide⟩

/-- C6: `_parse_retry_after` computes exactly the spec's algorithm — a
non-negative numeric value is returned as seconds, otherwise a value that
parses as an HTTP-date yields `max(0, parsedInstant - now)` (naive timestamps
read as UTC, so past dates clamp to 0), and every other input (malformed
number, malformed date, negative numeric value, absent or empty header) is
absent — and every returned duration is non-negative.  The two library-side
hypotheses record that `parsedate_to_datetime` raises on the empty string and
on every string accepted by `float()`. -/
theorem c6_parse_retry_after (env : RAEnv) (value : Option String)
    (hEmpty : env.parsedate "" = .error ())
    (hNum : ∀ v q, parseFloatQ v = some q → env.parsedate v = .error ()) :
    _parse_retry_after env value = parseRetryAfterSpec env value ∧
      ∀ d, _parse_retry_after env value = some d → 0 ≤ d := by
  cases value with
  | none => exact ⟨rfl, by intro d hd; cases hd⟩
  | some v =>
      by_cases hv : v = ""
      · subst hv
        have hf : parseFloatQ "" = none := rfl
        constructor
        · simp [_parse_retry_after, parseRetryAfterSpec, hf, hEmpty]
        · intro d hd
          simp [_parse_retry_after] at hd
      · cases hq : parseFloatQ v with
        | some q =>
            by_cases h0 : 0 ≤ q
            · constructor
              · simp [_parse_retry_after, parseRetryAfterSpec, hv, hq, h0]
              · intro d hd
                simp [_parse_retry_after, hv, hq, h0] at hd
                subst hd
                exact h0
            · constructor
              · simp [_parse_retry_after, parseRetryAfterSpec, hv, hq, h0,
                  retryAfterDateBranch, hNum v q hq]
              · intro d hd
                simp [_parse_retry_after, hv, hq, h0, retryAfterDateBranch,
                  hNum v q hq] at hd
        | none =>
            constructor
            · cases hp : env.parsedate v with
              | error u =>
                  cases u
                  simp [_parse_retry_after, parseRetryAfterSpec, hv, hq,
                    retryAfterDateBranch, hp]
              | ok od =>
                  cases od <;>
                    simp [_parse_retry_after, parseRetryAfterSpec, hv, hq,
                      retryAfterDateBranch, hp]
            · intro d hd
              simp [_parse_retry_after, hv, hq, retryAfterDateBranch] at hd
              cases hp : env.parsedate v with
              | error u => rw [hp] at hd; cases hd
              | ok od =>
                  cases od with
                  | none => rw [hp] at hd; cases hd
                  | some dt =>
                      rw [hp] at hd
                      cases hd
                      exact le_max_left 0 _

/-- C6 witness: the Retry-After contract instantiated at the value `"30"` in
an environment whose date parser always raises. -/
theorem c6_witness :
    _parse_retry_after envNoDate (some "30") = parseRetryAfterSpec envNoDate (some "30") ∧
      ∀ d, _parse_retry_after envNoDate (some "30") = some d → 0 ≤ d :=
  c6_parse_retry_after envNoDate (some "30") rfl (fun _ _ _ => rfl)

/-- C8: if the token endpoint answers with a non-2xx status, `get_token` (when
it actually fetches, i.e. on a cache miss) and `refresh` raise the
`raise_for_status` error and leave the cached token state exactly unchanged —
for both provider variants. -/
theorem c8_fetch_failure (early now : ℚ) (r : TokenResp) (st : ProviderState)
    (m : BasicTokenEndpointProvider.HM) (hbad : r.status < 200 ∨ 300 ≤ r.status) :
    (tokenCacheHit st.token st.exp now = false →
      ClientCredentialsProvider.get_token early now r st =
        (.error .httpStatusError, st, true)) ∧
      ClientCredentialsProvider.refresh early now r st =
        (.error .httpStatusError, st, true) ∧
      (tokenCacheHit st.token st.exp now = false →
        BasicTokenEndpointProvider.get_token m early now r st =
          (.error .httpStatusError, st, true)) ∧
      BasicTokenEndpointProvider.refresh m early now r st =
        (.error .httpStatusError, st, true) := by
  have hcc : ClientCredentialsProvider._fetch early now r = .error .httpStatusError := by
    simp [ClientCredentialsProvider._fetch, hbad]
  have hb : BasicTokenEndpointProvider._fetch m early now r = .error .httpStatusError := by
    simp [BasicTokenEndpointProvider._fetch, hbad]
  refine ⟨?_, ?_, ?_, ?_⟩
  · intro hmiss
    simp [ClientCredentialsProvider.get_token, hmiss, hcc]
  · simp [ClientCredentialsProvider.refresh, hcc]
  · intro hmiss
    simp [BasicTokenEndpointProvider.get_token, hmiss, hb]
  · simp [BasicTokenEndpointProvider.refresh, hb]

/-- C8 witness: a 500 token-endpoint response against an empty cache. -/
theorem c8_witness :
    ClientCredentialsProvider.get_token 60 0 (TokenResp.mk 500 none none)
        (ProviderState.mk "" 0) =
      (.error .httpStatusError, ProviderState.mk "" 0, true) ∧
      BasicTokenEndpointProvider.refresh .GET 60 0 (TokenResp.mk 500 none none)
          (ProviderState.mk "" 0) =
        (.error .httpStatusError, ProviderState.mk "" 0, true) := by
  have h := c8_fetch_failure 60 0 (TokenResp.mk 500 none none) (ProviderState.mk "" 0)
    .GET (Or.inr (by norm_num))
  exact ⟨h.1 (by decide), h.2.2.2⟩

/-- C10: for both providers, `get_token` returns without fetching exactly when
the cached token is non-empty and `now` is strictly before the cached expiry;
a fetch-free return yields the cached token unchanged; and a cached
empty-string token forces a fetch regardless of its stored expiry. -/
theorem c10_cache_gate (early now : ℚ) (r : TokenResp) (st : ProviderState)
    (m : BasicTokenEndpointProvider.HM) :
    (((ClientCredentialsProvider.get_token early now r st).2.2 = false) ↔
        (st.token ≠ "" ∧ now < st.exp)) ∧
      ((ClientCredentialsProvider.get_token early now r st).2.2 = false →
        ClientCredentialsProvider.get_token early now r st = (.ok st.token, st, false)) ∧
      (st.token = "" → (ClientCredentialsProvider.get_token early now r st).2.2 = true) ∧
      (((BasicTokenEndpointProvider.get_token m early now r st).2.2 = false) ↔
        (st.token ≠ "" ∧ now < st.exp)) ∧
      ((BasicTokenEndpointProvider.get_token m early now r st).2.2 = false →
        BasicTokenEndpointProvider.get_token m early now r st = (.ok st.token, st, false)) ∧
      (st.token = "" →
        (BasicTokenEndpointProvider.get_token m early now r st).2.2 = true) := by
  have hhit : tokenCacheHit st.token st.exp now = true ↔ (st.token ≠ "" ∧ now < st.exp) := by
    simp [tokenCacheHit]
  by_cases h : tokenCacheHit st.token st.exp now = true
  · have hnotempty := (hhit.mp h).1
    refine ⟨?_, ?_, ?_, ?_, ?_, ?_⟩ <;>
      simp [ClientCredentialsProvider.get_token, BasicTokenEndpointProvider.get_token, h]
    · exact hhit.mp h
    · intro he; exact absurd he hnotempty
    · exact hhit.mp h
    · intro he; exact absurd he hnotempty
  · have hmiss : tokenCacheHit st.token st.exp now = false := by
      cases hb : tokenCacheHit st.token st.exp now
      · rfl
      · exact absurd hb h
    have hnot : ¬ (st.token ≠ "" ∧ now < st.exp) := fun hc => h (hhit.mpr hc)
    constructor
    · cases hf : ClientCredentialsProvider._fetch early now r <;>
        simp [ClientCredentialsProvider.get_token, hmiss, hf, hnot]
    constructor
    · cases hf : ClientCredentialsProvider._fetch early now r <;>
        simp [ClientCredentialsProvider.get_token, hmiss, hf]
    constructor
    · intro _
      cases hf : ClientCredentialsProvider._fetch early now r <;>
        simp [ClientCredentialsProvider.get_token, hmiss, hf]
    constructor
    · cases hf : BasicTokenEndpointProvider._fetch m early now r <;>
        simp [BasicTokenEndpointProvider.get_token, hmiss, hf, hnot]
    constructor
    · cases hf : BasicTokenEndpointProvider._fetch m early now r <;>
        simp [BasicTokenEndpointProvider.get_token, hmiss, hf]
    · intro _
      cases hf : BasicTokenEndpointProvider._fetch m early now r <;>
        simp [BasicTokenEndpointProvider.get_token, hmiss, hf]

/-- C10 witness: a cached empty-string token with a far-future expiry is not
served from cache — `get_token` fetches. -/
theorem c10_witness :
    (ClientCredentialsProvider.get_token 60 0 (TokenResp.mk 200 (some "t") (some 3600))
        (ProviderState.mk "" 99999)).2.2 = true :=
  (c10_cache_gate 60 0 (TokenResp.mk 200 (some "t") (some 3600))
      (ProviderState.mk "" 99999) .GET).2.2.1 rfl

@[simp] theorem countSends_nil : countSends [] = 0 := rfl

@[simp] theorem countSends_cons (e : Ev) (l : List Ev) :
    countSends (e :: l) = countSends l + (if e.isSend then 1 else 0) := by
  simp [countSends, List.countP_cons]

@[simp] theorem countSends_ite (c : Prop) [Decidable c] (a b : List Ev) :
    countSends (if c then a else b) = if c then countSends a else countSends b := by
  split <;> rfl

@[simp] theorem countSends_append (a b : List Ev) :
    countSends (a ++ b) = countSends a + countSends b := by
  simp [countSends, List.countP_append]

@[simp] theorem countSends_authEvs (cfg : TCfg) : countSends (authEvs cfg) = 0 := by
  unfold authEvs
  split <;> rfl

/-- Retry budget left in a loop state: sends from state `(attempt, didRefresh)`
never exceed the remaining guarded retries plus the single 401 retry plus the
final send. -/
theorem sendLoop_send_bound (cfg : TCfg) (script : List SendOutcome) :
    ∀ (us : List ℚ) (attempt : Nat) (didRefresh : Bool) (tr : List Ev),
      countSends (sendLoop cfg script us attempt didRefresh tr).2 ≤
        countSends tr + (cfg.retry.max_attempts + 1 - attempt) +
          (if didRefresh then 0 else 1) + 1 := by
  induction script with
  | nil =>
      intro us attempt d tr
      simp [sendLoop]
      omega
  | cons o rest ih =>
      intro us attempt d tr
      cases o with
      | netErr =>
          simp only [sendLoop]
          split
          · simp [Ev.isSend]
            omega
          · rename_i hcond
            push_neg at hcond
            obtain ⟨h1, -⟩ := hcond
            split
            · simp [Ev.isSend]
              omega
            · refine le_trans (ih _ _ _ _) ?_
              simp [Ev.isSend]
              omega
      | resp st ra =>
          simp only [sendLoop]
          split
          · rename_i hcond
            have hd : d = false := by
              simp only [Bool.and_eq_true, Bool.not_eq_true'] at hcond
              exact hcond.1.2
            subst hd
            refine le_trans (ih _ _ _ _) ?_
            simp [Ev.isSend]
            omega
          · split
            · rename_i hcond
              obtain ⟨-, h2, -⟩ := hcond
              split
              · refine le_trans (ih _ _ _ _) ?_
                simp [Ev.isSend]
                omega
              · split
                · simp [Ev.isSend]
                  omega
                · refine le_trans (ih _ _ _ _) ?_
                  simp [Ev.isSend]
                  omega
            · simp [Ev.isSend]
              omega

/-- C2 counterexample: with `max_attempts = 1`, a retry-eligible GET that gets
a retryable 429 (with a Retry-After hint), then a 401 whose auth refresh
succeeds, then a 200, is sent 3 times — more than the claimed bound of
`maxAttempts + 1 = 2` sends (i.e. more than `maxAttempts = 1` retries). -/
theorem c2_counterexample :
    cfgC2.retry.max_attempts = 1 ∧
      (requestT cfgC2 scriptC2 [0]).1 = .ok 200 ∧
      countSends (requestT cfgC2 scriptC2 [0]).2 = 3 ∧
      ¬ countSends (requestT cfgC2 scriptC2 [0]).2 ≤ cfgC2.retry.max_attempts + 1 := by
  refine ⟨rfl, by decide, by decide, by decide⟩

/-- C2 amended: every logical `Transport.request` call performs at most
`maxAttempts` network-error/retryable-status retries (each guarded by
`attempt ≤ maxAttempts`) plus at most one 401-triggered auth-refresh retry,
so at most `maxAttempts + 2` sends occur in total. -/
theorem c2_send_bound (cfg : TCfg) (script : List SendOutcome) (us : List ℚ) :
    countSends (requestT cfg script us).2 ≤ cfg.retry.max_attempts + 2 := by
  have h := sendLoop_send_bound cfg script us 1 false
    ([.build] ++ authEvs cfg ++ [.reqHooks])
  simp [Ev.isSend, requestT] at h ⊢
  exact le_trans h (by omega)

theorem getElemQ_replicate {α : Type} (n i : Nat) (a : α) :
    (List.replicate n a)[i]? = if i < n then some a else none := by
  induction n generalizing i with
  | zero => simp
  | succ m ih =>
      cases i with
      | zero => simp [List.replicate]
      | succ j => simp [List.replicate, ih]

/-- A freshly fetched token with a non-empty string always passes the cache
check: the expiry `now + max(30, ttl - early)` lies strictly after `now`. -/
theorem cacheHit_after_fetch (T : String) (now ttl early : ℚ) (hT : T ≠ "") :
    tokenCacheHit T (now + max MIN_TOKEN_TTL_S (ttl - early)) now = true := by
  have hlt : now < now + max MIN_TOKEN_TTL_S (ttl - early) := by
    have h30 : (0 : ℚ) < MIN_TOKEN_TTL_S := by norm_num [MIN_TOKEN_TTL_S]
    have hle := le_max_left MIN_TOKEN_TTL_S (ttl - early)
    linarith
  simp only [tokenCacheHit, Bool.and_eq_true, bne_iff_ne, decide_eq_true_eq]
  exact ⟨hT, hlt⟩

/-- The empty-cache sentinel never passes the cache check. -/
theorem cacheMiss_empty (now : ℚ) : tokenCacheHit "" 0 now = false := by
  simp [tokenCacheHit]

/-- `_fetch` on a 200 response carrying `access_token = T`,
`expires_in = ttl`. -/
theorem fetchTok (early now ttl : ℚ) (T : String) :
    ClientCredentialsProvider._fetch early now (TokenResp.mk 200 (some T) (some ttl)) =
      .ok (T, now + max MIN_TOKEN_TTL_S (ttl - early)) := by
  norm_num [ClientCredentialsProvider._fetch]

/-- One scheduler step preserves the system invariant. -/
theorem stepSys_inv (early now ttl : ℚ) (T : String) (resps : Nat → TokenResp)
    (hT : T ≠ "") (hr : ∀ k, resps k = TokenResp.mk 200 (some T) (some ttl))
    (s : FetchSys) (j : Nat) (h : SysInv early now ttl T s) :
    SysInv early now ttl T (stepSys early now resps s j) := by
  obtain ⟨hLock, hZero, hOne⟩ := h
  cases htask : s.tasks[j]? with
  | none => simpa [stepSys, htask] using ⟨hLock, hZero, hOne⟩
  | some ph =>
      cases ph with
      | ready =>
          by_cases hlock : s.lock = none
          · by_cases hhit : tokenCacheHit s.cache.token s.cache.exp now = true
            · -- cache hit: a fetch has already completed
              have hnz : s.fetchCount ≠ 0 := by
                intro h0
                obtain ⟨hc, -⟩ := hZero h0
                rw [hc] at hhit
                simp [tokenCacheHit] at hhit
              obtain ⟨h1, hc, hTasks⟩ := hOne hnz
              simp only [stepSys, htask, hlock, if_true, hhit]
              refine ⟨?_, ?_, ?_⟩
              · intro i hi
                by_cases hij : i = j
                · subst hij
                  simp [List.getElem?_set_self', htask] at hi
                · rw [List.getElem?_set_ne (fun he => hij he.symm)] at hi
                  have hcontr := hLock i hi
                  rw [hlock] at hcontr
                  exact Option.noConfusion hcontr
              · intro h0; exact absurd h0 hnz
              · intro _
                refine ⟨h1, hc, ?_⟩
                intro i p hp
                by_cases hij : i = j
                · subst hij
                  simp [List.getElem?_set_self', htask] at hp
                  right
                  rw [← hp, hc]
                · rw [List.getElem?_set_ne (fun he => hij he.symm)] at hp
                  exact hTasks i p hp
            · -- cache miss: no fetch has completed yet; start one
              have hz : s.fetchCount = 0 := by
                by_contra hnz
                obtain ⟨-, hc, -⟩ := hOne hnz
                rw [hc] at hhit
                exact hhit (cacheHit_after_fetch T now ttl early hT)
              obtain ⟨hc0, hTasks0⟩ := hZero hz
              have hhitf : tokenCacheHit s.cache.token s.cache.exp now = false := by
                cases hb : tokenCacheHit s.cache.token s.cache.exp now
                · rfl
                · exact absurd hb hhit
              simp only [stepSys, htask, hlock, if_true, hhitf, Bool.false_eq_true,
                if_false]
              refine ⟨?_, ?_, ?_⟩
              · intro i hi
                by_cases hij : i = j
                · subst hij; rfl
                · rw [List.getElem?_set_ne (fun he => hij he.symm)] at hi
                  exact absurd (hLock i hi) (by simp [hlock])
              · intro _
                refine ⟨hc0, ?_⟩
                intro i p hp
                by_cases hij : i = j
                · subst hij
                  simp [List.getElem?_set_self', htask] at hp
                  right; exact hp.symm
                · rw [List.getElem?_set_ne (fun he => hij he.symm)] at hp
                  exact hTasks0 i p hp
              · intro h0; exact absurd hz h0
          · simpa [stepSys, htask, hlock] using ⟨hLock, hZero, hOne⟩
      | fetching =>
          have hLockj := hLock j htask
          have hz : s.fetchCount = 0 := by
            by_contra hnz
            obtain ⟨-, -, hTasks⟩ := hOne hnz
            rcases hTasks j _ htask with hc | hc <;> cases hc
          obtain ⟨hc0, hTasks0⟩ := hZero hz
          simp only [stepSys, htask, hLockj, if_true, hr, fetchTok]
          refine ⟨?_, ?_, ?_⟩
          · intro i hi
            by_cases hij : i = j
            · subst hij
              simp [List.getElem?_set_self', htask] at hi
            · rw [List.getElem?_set_ne (fun he => hij he.symm)] at hi
              have := hLock i hi
              rw [hLockj] at this
              exact absurd (Option.some_injective _ this).symm hij
          · intro h0; simp at h0
          · intro _
            refine ⟨by show s.fetchCount + 1 = 1; omega, rfl, ?_⟩
            intro i p hp
            by_cases hij : i = j
            · subst hij
              simp [List.getElem?_set_self', htask] at hp
              right; exact hp.symm
            · rw [List.getElem?_set_ne (fun he => hij he.symm)] at hp
              rcases hTasks0 i p hp with hc | hc
              · left; exact hc
              · subst hc
                have := hLock i hp
                rw [hLockj] at this
                exact absurd (Option.some_injective _ this).symm hij
      | doneOk t => simpa [stepSys, htask] using ⟨hLock, hZero, hOne⟩
      | doneErr => simpa [stepSys, htask] using ⟨hLock, hZero, hOne⟩

/-- Running any schedule preserves the system invariant. -/
theorem runSys_inv (early now ttl : ℚ) (T : String) (resps : Nat → TokenResp)
    (hT : T ≠ "") (hr : ∀ k, resps k = TokenResp.mk 200 (some T) (some ttl))
    (sched : List Nat) :
    ∀ s : FetchSys, SysInv early now ttl T s →
      SysInv early now ttl T (runSys early now resps s sched) := by
  induction sched with
  | nil => intro s h; exact h
  | cons a rest ih =>
      intro s h
      exact ih _ (stepSys_inv early now ttl T resps hT hr s a h)

/-- The initial system satisfies the invariant. -/
theorem initSys_inv (early now ttl : ℚ) (T : String) (N : Nat) :
    SysInv early now ttl T (initSys N) := by
  refine ⟨?_, ?_, ?_⟩
  · intro i hi
    rw [show (initSys N).tasks = List.replicate N .ready from rfl,
      getElemQ_replicate] at hi
    split at hi <;> simp at hi
  · intro _
    refine ⟨rfl, ?_⟩
    intro i p hp
    rw [show (initSys N).tasks = List.replicate N .ready from rfl,
      getElemQ_replicate] at hp
    split at hp
    · left; exact (Option.some_injective _ hp).symm
    · cases hp
  · intro h0; exact absurd rfl h0

/-- A scheduler step never changes the number of tasks. -/
theorem stepSys_tasks_length (early now : ℚ) (resps : Nat → TokenResp)
    (s : FetchSys) (i : Nat) :
    (stepSys early now resps s i).tasks.length = s.tasks.length := by
  unfold stepSys
  split
  · split
    · split <;> simp
    · rfl
  · split
    · split <;> simp
    · rfl
  · rfl

/-- Running a schedule never changes the number of tasks. -/
theorem runSys_tasks_length (early now : ℚ) (resps : Nat → TokenResp)
    (sched : List Nat) :
    ∀ s : FetchSys, (runSys early now resps s sched).tasks.length = s.tasks.length := by
  induction sched with
  | nil => intro s; rfl
  | cons a rest ih =>
      intro s
      rw [show runSys early now resps s (a :: rest) =
        runSys early now resps (stepSys early now resps s a) rest from rfl, ih]
      exact stepSys_tasks_length early now resps s a

/-- C9 counterexample: a token endpoint that (validly) returns an
empty-string `access_token` defeats the claimed "exactly one fetch": two
concurrent callers on an empty cache both complete, yet two fetches run,
because an empty token is never accepted by the cache check. -/
theorem c9_counterexample :
    (runSys 60 0 emptyTokenResps (initSys 2) [0, 0, 1, 1]).fetchCount = 2 ∧
      ∀ p ∈ (runSys 60 0 emptyTokenResps (initSys 2) [0, 0, 1, 1]).tasks,
        p.isDone = true := by
  exact ⟨by decide, by decide⟩

/-- Lock coherence is preserved by one scheduler step for an arbitrary token
endpoint — whether a fetch succeeds, fails (`doneErr` path), or returns an
empty token, a task in the fetching phase always holds the lock. -/
theorem stepSys_lock_coherence (early now : ℚ) (resps : Nat → TokenResp)
    (s : FetchSys) (j : Nat)
    (h : ∀ i : Nat, s.tasks[i]? = some TaskPhase.fetching → s.lock = some i) :
    ∀ i : Nat, (stepSys early now resps s j).tasks[i]? = some TaskPhase.fetching →
      (stepSys early now resps s j).lock = some i := by
  cases htask : s.tasks[j]? with
  | none => simpa [stepSys, htask] using h
  | some ph =>
      cases ph with
      | ready =>
          by_cases hlock : s.lock = none
          · by_cases hhit : tokenCacheHit s.cache.token s.cache.exp now = true
            · simp only [stepSys, htask, hlock, if_true, hhit]
              intro i hi
              by_cases hij : i = j
              · subst hij
                simp [List.getElem?_set_self', htask] at hi
              · rw [List.getElem?_set_ne (fun he => hij he.symm)] at hi
                have hcontr := h i hi
                rw [hlock] at hcontr
                exact Option.noConfusion hcontr
            · have hhitf : tokenCacheHit s.cache.token s.cache.exp now = false := by
                cases hb : tokenCacheHit s.cache.token s.cache.exp now
                · rfl
                · exact absurd hb hhit
              simp only [stepSys, htask, hlock, if_true, hhitf, Bool.false_eq_true,
                if_false]
              intro i hi
              by_cases hij : i = j
              · subst hij; rfl
              · rw [List.getElem?_set_ne (fun he => hij he.symm)] at hi
                exact absurd (h i hi) (by simp [hlock])
          · simpa [stepSys, htask, hlock] using h
      | fetching =>
          have hLockj := h j htask
          simp only [stepSys, htask, hLockj, if_true]
          cases hf : ClientCredentialsProvider._fetch early now (resps s.fetchCount) with
          | ok te =>
              simp only [hf]
              intro i hi
              by_cases hij : i = j
              · subst hij
                simp [List.getElem?_set_self', htask] at hi
              · rw [List.getElem?_set_ne (fun he => hij he.symm)] at hi
                have hcontr := h i hi
                rw [hLockj] at hcontr
                exact absurd (Option.some_injective _ hcontr).symm hij
          | error e =>
              simp only [hf]
              intro i hi
              by_cases hij : i = j
              · subst hij
                simp [List.getElem?_set_self', htask] at hi
              · rw [List.getElem?_set_ne (fun he => hij he.symm)] at hi
                have hcontr := h i hi
                rw [hLockj] at hcontr
                exact absurd (Option.some_injective _ hcontr).symm hij
      | doneOk t => simpa [stepSys, htask] using h
      | doneErr => simpa [stepSys, htask] using h

/-- Lock coherence is preserved by every schedule, for an arbitrary token
endpoint. -/
theorem runSys_lock_coherence (early now : ℚ) (resps : Nat → TokenResp)
    (sched : List Nat) :
    ∀ s : FetchSys,
      (∀ i : Nat, s.tasks[i]? = some TaskPhase.fetching → s.lock = some i) →
      ∀ i : Nat, (runSys early now resps s sched).tasks[i]? = some TaskPhase.fetching →
        (runSys early now resps s sched).lock = some i := by
  induction sched with
  | nil => intro s h; exact h
  | cons a rest ih =>
      intro s h
      exact ih _ (stepSys_lock_coherence early now resps s a h)

/-- In the initial system no task is fetching, so lock coherence holds. -/
theorem initSys_lock_coherence (N : Nat) :
    ∀ i : Nat, (initSys N).tasks[i]? = some TaskPhase.fetching →
      (initSys N).lock = some i := by
  intro i hi
  rw [show (initSys N).tasks = List.replicate N TaskPhase.ready from rfl,
    getElemQ_replicate] at hi
  split at hi <;> simp at hi

/-- C9 amended: per provider instance at most one fetch is ever in flight —
proved for every schedule and every token-endpoint behavior (successes,
failures, empty tokens alike), since only the lock holder can be in the
fetching phase.  Additionally, provided every fetch succeeds with one fixed
non-empty access token, any number of concurrent `get_token` callers on an
empty cache complete with at most one fetch in total, exactly one when at
least one caller exists and all have finished, and every caller that
returned a token returned that fetched token. -/
theorem c9_single_fetch (early now ttl : ℚ) (T : String) (N : Nat) (sched : List Nat) :
    (∀ (resps : Nat → TokenResp) (i j : Nat),
      (runSys early now resps (initSys N) sched).tasks[i]? = some TaskPhase.fetching →
      (runSys early now resps (initSys N) sched).tasks[j]? = some TaskPhase.fetching →
        i = j) ∧
      (∀ resps : Nat → TokenResp, T ≠ "" →
        (∀ k, resps k = TokenResp.mk 200 (some T) (some ttl)) →
        (runSys early now resps (initSys N) sched).fetchCount ≤ 1 ∧
          ((∀ p ∈ (runSys early now resps (initSys N) sched).tasks, p.isDone = true) →
            0 < N → (runSys early now resps (initSys N) sched).fetchCount = 1) ∧
          (∀ (i : Nat) (t : String),
            (runSys early now resps (initSys N) sched).tasks[i]? =
              some (TaskPhase.doneOk t) → t = T)) := by
  constructor
  · intro resps i j hi hj
    have hcoh := runSys_lock_coherence early now resps sched (initSys N)
      (initSys_lock_coherence N)
    have h1 := hcoh i hi
    have h2 := hcoh j hj
    rw [h1] at h2
    exact Option.some_injective _ h2
  intro resps hT hr
  obtain ⟨hLock, hZero, hOne⟩ :=
    runSys_inv early now ttl T resps hT hr sched (initSys N)
      (initSys_inv early now ttl T N)
  refine ⟨?_, ?_, ?_⟩
  · by_cases h0 : (runSys early now resps (initSys N) sched).fetchCount = 0
    · omega
    · have := (hOne h0).1
      omega
  · intro hdone hN
    by_contra hne
    have h0 : (runSys early now resps (initSys N) sched).fetchCount = 0 := by
      by_contra h0
      exact hne (hOne h0).1
    obtain ⟨-, hT0⟩ := hZero h0
    have hlen : (runSys early now resps (initSys N) sched).tasks.length = N := by
      rw [runSys_tasks_length]
      simp [initSys]
    have hNl : 0 < (runSys early now resps (initSys N) sched).tasks.length := by
      rw [hlen]; exact hN
    have hp : (runSys early now resps (initSys N) sched).tasks[0]? =
        some ((runSys early now resps (initSys N) sched).tasks.get ⟨0, hNl⟩) :=
      List.getElem?_eq_getElem hNl
    have hmem : (runSys early now resps (initSys N) sched).tasks.get ⟨0, hNl⟩ ∈
        (runSys early now resps (initSys N) sched).tasks :=
      List.getElem_mem hNl
    have hd := hdone _ hmem
    rcases hT0 0 _ hp with hc | hc <;> rw [hc] at hd <;> simp [TaskPhase.isDone] at hd
  · intro i t ht
    by_cases h0 : (runSys early now resps (initSys N) sched).fetchCount = 0
    · obtain ⟨-, hT0⟩ := hZero h0
      rcases hT0 i _ ht with hc | hc <;> cases hc
    · obtain ⟨-, -, hT1⟩ := hOne h0
      rcases hT1 i _ ht with hc | hc
      · cases hc
      · injection hc

/-- C9 witness: five concurrent callers, a `200/"tok"/3600s` token endpoint;
the completed schedule performs exactly one fetch. -/
theorem c9_witness :
    (runSys 60 0 tokResps (initSys 5) [0, 0, 1, 2, 3, 4]).fetchCount = 1 :=
  ((c9_single_fetch 60 0 3600 "tok" 5 [0, 0, 1, 2, 3, 4]).2 tokResps (by decide)
      (fun _ => rfl)).2.1
    (of_decide_eq_true (by with_unfolding_all rfl))
    (by decide)

end Gava
